import Mathlib

/-!
Verification of the fitment-position resolver and the free-text record
parser of `fitmentapp.py` (Car Tuner Pro dashboard).

The two pieces of logic are shallowly embedded:

* `create_tpms_diagram` (source lines 55-105): the corner-assignment loop
  is `processRow` folded over the rows; the Plotly rendering is out of
  scope except for the figure title, kept in `Diagram.title`.
* the admin parse loop (source lines 247-291): `parseRecords`, built from
  `pySplit`, `pyStrip`, `pyStartsWith` and `pyReplace`, which model the
  Python string methods `split`, `strip`, `startswith` and `replace`
  (whitespace is modelled by `Char.isWhitespace`; Python's `str.strip`
  additionally strips a few rarer control characters, which no claim
  exercises).

All string primitives work on `List Char` with structural (fuel-bounded)
recursion so that every definition evaluates inside the kernel.
-/

namespace FitmentApp

/-! ### Models of the Python string methods -/

/-- `str.strip` on a character list: drop whitespace from both ends. -/
def stripChars (s : List Char) : List Char :=
  ((s.dropWhile Char.isWhitespace).reverse.dropWhile Char.isWhitespace).reverse

/-- Python `s.strip()`. -/
def pyStrip (s : String) : String :=
  String.mk (stripChars s.data)

/-- Does the second list start with the first?  (Model of `str.startswith`.) -/
def charsStartWith : List Char → List Char → Bool
  | [], _ => true
  | _ :: _, [] => false
  | p :: ps, c :: cs => p == c && charsStartWith ps cs

/-- Python `s.startswith(pre)`. -/
def pyStartsWith (s pre : String) : Bool :=
  charsStartWith pre.data s.data

/-- Python `str.split(sep)` on character lists: non-overlapping
left-to-right matches of `sep` cut the list; `fuel` bounds the recursion
(each step consumes at least one character, so `fuel = s.length`
suffices).  Python raises on an empty separator, so the `sep = []` case
(made inert by the `!sep.isEmpty` guard) is never exercised. -/
def splitChars (sep : List Char) : Nat → List Char → List (List Char)
  | _, [] => [[]]
  | 0, s => [s]
  | fuel + 1, c :: cs =>
    if charsStartWith sep (c :: cs) && !sep.isEmpty then
      [] :: splitChars sep fuel ((c :: cs).drop sep.length)
    else
      match splitChars sep fuel cs with
      | [] => [[c]]
      | l :: ls => (c :: l) :: ls

/-- Python `s.split(sep)`. -/
def pySplit (s sep : String) : List String :=
  (splitChars sep.data s.data.length s.data).map String.mk

/-- Python `str.replace(old, new)` on character lists: every
non-overlapping left-to-right occurrence of `old` is replaced by `new`. -/
def replaceChars (old new : List Char) : Nat → List Char → List Char
  | _, [] => []
  | 0, s => s
  | fuel + 1, c :: cs =>
    if charsStartWith old (c :: cs) && !old.isEmpty then
      new ++ replaceChars old new fuel ((c :: cs).drop old.length)
    else
      c :: replaceChars old new fuel cs

/-- Python `s.replace(old, new)`. -/
def pyReplace (s old new : String) : String :=
  String.mk (replaceChars old.data new.data s.data.length s.data)

/-! ### Position resolver (`create_tpms_diagram`, lines 55-105) -/

/-- One fitment sheet row, with the columns the diagram logic reads.
The three size columns are kept as the strings interpolated into the
label (pandas hands them over already stringified by the f-string). -/
structure FitmentRow where
  position : String
  width_mm : String
  aspect_ratio : String
  rim_diameter_in : String
deriving DecidableEq

/-- One entry of the `wheel_corners` dict: display text, fixed layout
coordinates, and the annotation color. -/
structure Corner where
  text : String
  x : Rat
  y : Rat
  color : String
deriving DecidableEq

/-- The `wheel_corners` dict: four fixed keys FL, FR, RL, RR. -/
structure WheelCorners where
  FL : Corner
  FR : Corner
  RL : Corner
  RR : Corner
deriving DecidableEq

/-- Initial `wheel_corners` value (lines 56-61): every corner unset. -/
def wheelCornersInit : WheelCorners where
  FL := { text := "N/A", x := mkRat (-29) 10, y := mkRat 5 2, color := "#adadad" }
  FR := { text := "N/A", x := mkRat 29 10, y := mkRat 5 2, color := "#adadad" }
  RL := { text := "N/A", x := mkRat (-29) 10, y := mkRat (-5) 2, color := "#adadad" }
  RR := { text := "N/A", x := mkRat 29 10, y := mkRat (-5) 2, color := "#adadad" }

/-- `fmt(row)` (lines 63-64): the HTML-bold label built from the three
size columns. -/
def fmt (row : FitmentRow) : String :=
  "<b>" ++ (row.width_mm ++ (" / " ++ (row.aspect_ratio ++ (" R" ++ (row.rim_diameter_in ++ "</b>")))))

/-- `corner.update({'text': label, 'color': '#333'})`. -/
def setLabel (c : Corner) (label : String) : Corner :=
  { c with text := label, color := "#333" }

/-- Body of the `for _, row in car_data.iterrows()` loop (lines 66-85). -/
def processRow (wc : WheelCorners) (row : FitmentRow) : WheelCorners :=
  if row.position ∈ ["front", "front_axle"] then
    { wc with FL := setLabel wc.FL (fmt row), FR := setLabel wc.FR (fmt row) }
  else if row.position ∈ ["back", "rear", "rear_axle"] then
    { wc with RL := setLabel wc.RL (fmt row), RR := setLabel wc.RR (fmt row) }
  else if row.position = "all" then
    { FL := setLabel wc.FL (fmt row), FR := setLabel wc.FR (fmt row),
      RL := setLabel wc.RL (fmt row), RR := setLabel wc.RR (fmt row) }
  else if row.position = "front_left" then
    { wc with FL := setLabel wc.FL (fmt row) }
  else if row.position = "front_right" then
    { wc with FR := setLabel wc.FR (fmt row) }
  else if row.position = "back_left" then
    { wc with RL := setLabel wc.RL (fmt row) }
  else if row.position = "back_right" then
    { wc with RR := setLabel wc.RR (fmt row) }
  else
    wc

/-- The whole corner-assignment loop: fold `processRow` over the rows in
order, starting from the unset corners. -/
def resolvePositions (car_data : List FitmentRow) : WheelCorners :=
  car_data.foldl processRow wheelCornersInit

/-- Result of `create_tpms_diagram` restricted to its data content: the
figure title (line 102) and the four resolved corners. -/
structure Diagram where
  title : String
  corners : WheelCorners
deriving DecidableEq

/-- `create_tpms_diagram(car_data, make, model)`, data content only. -/
def create_tpms_diagram (car_data : List FitmentRow) (make model : String) : Diagram where
  title := make ++ " " ++ model ++ " Fitment"
  corners := resolvePositions car_data

/-- Which position tags write corner FL (lines 69-71, 75-79). -/
def coversFL (pos : String) : Prop :=
  pos ∈ ["front", "front_axle", "all", "front_left"]

/-- Which position tags write corner FR. -/
def coversFR (pos : String) : Prop :=
  pos ∈ ["front", "front_axle", "all", "front_right"]

/-- Which position tags write corner RL. -/
def coversRL (pos : String) : Prop :=
  pos ∈ ["back", "rear", "rear_axle", "all", "back_left"]

/-- Which position tags write corner RR. -/
def coversRR (pos : String) : Prop :=
  pos ∈ ["back", "rear", "rear_axle", "all", "back_right"]

instance (pos : String) : Decidable (coversFL pos) := by unfold coversFL; infer_instance
instance (pos : String) : Decidable (coversFR pos) := by unfold coversFR; infer_instance
instance (pos : String) : Decidable (coversRL pos) := by unfold coversRL; infer_instance
instance (pos : String) : Decidable (coversRR pos) := by unfold coversRR; infer_instance

/-! ### Record parser (admin parse loop, lines 247-291) -/

/-- One parsed market record (the dict appended at lines 268-274).  The
batch date is kept as an uninterpreted string. -/
structure ValueRecord where
  date : String
  carName : String
  value : String
  junkyardRate : String
  auctionRate : String
deriving DecidableEq

/-- The three mutable locals `val`, `junk`, `auc` of one segment's scan. -/
structure RecordFields where
  val : String
  junk : String
  auc : String
deriving DecidableEq

/-- `lines = [line.strip() for line in entry.strip().split('\n') if line.strip()]`
(line 252). -/
def entryLines (entry : String) : List String :=
  ((pySplit (pyStrip entry) "\n").map pyStrip).filter (fun l => decide (l ≠ ""))

/-- Body of the `for line in lines[1:]` loop (lines 260-266). -/
def scanLine (f : RecordFields) (line : String) : RecordFields :=
  if pyStartsWith line "Value:" then
    { f with val := pyStrip (pyReplace line "Value:" "") }
  else if pyStartsWith line "Junkyard Rate:" then
    { f with junk := pyStrip (pyReplace line "Junkyard Rate:" "") }
  else if pyStartsWith line "Auction Rate:" then
    { f with auc := pyStrip (pyReplace line "Auction Rate:" "") }
  else
    f

/-- The field scan of one segment, starting from the defaults
`val = "0"`, `junk = "N/A"`, `auc = "N/A"` (lines 256-258). -/
def scanLines (ls : List String) : RecordFields :=
  ls.foldl scanLine ⟨"0", "N/A", "N/A"⟩

/-- One iteration of the `for entry in entries` loop (lines 251-274):
`none` models `continue` on a segment with no non-empty lines. -/
def parseEntry (batchDate entry : String) : Option ValueRecord :=
  match entryLines entry with
  | [] => none
  | carName :: rest =>
    let f := scanLines rest
    some { date := batchDate, carName := carName,
           value := f.val, junkyardRate := f.junk, auctionRate := f.auc }

/-- The record separator `'━━━'` (line 248). -/
def sepStr : String := "━━━"

/-- The whole admin parse loop: split on the separator and collect the
record of every segment that yields one, in order. -/
def parseRecords (batchDate rawText : String) : List ValueRecord :=
  (pySplit rawText sepStr).filterMap (parseEntry batchDate)

/-! ### Exception-aware model of the parse loop

The parse loop sits in a `try`/`except` (lines 247, 290).  The only
operation in it that can raise is the list indexing `lines[0]`, guarded
by `if not lines: continue`; the model below returns `Except.error` at
exactly the spots Python could raise, so totality of the loop is the
theorem that it always returns `Except.ok`. -/

/-- `parseEntry` with the `lines[0]` indexing made explicitly fallible. -/
def parseEntryE (batchDate entry : String) : Except String (Option ValueRecord) :=
  if (entryLines entry).isEmpty then
    Except.ok none
  else
    match (entryLines entry).head? with
    | none => Except.error "IndexError: list index out of range"
    | some carName =>
      Except.ok (some { date := batchDate, carName := carName,
                        value := (scanLines (entryLines entry).tail).val,
                        junkyardRate := (scanLines (entryLines entry).tail).junk,
                        auctionRate := (scanLines (entryLines entry).tail).auc })

/-- The loop over all segments, stopping at the first raised error, as
the surrounding `try` would. -/
def parseEntriesE (batchDate : String) : List String → Except String (List ValueRecord)
  | [] => Except.ok []
  | e :: rest =>
    match parseEntryE batchDate e with
    | Except.error msg => Except.error msg
    | Except.ok none => parseEntriesE batchDate rest
    | Except.ok (some r) =>
      match parseEntriesE batchDate rest with
      | Except.error msg => Except.error msg
      | Except.ok rs => Except.ok (r :: rs)

/-- The whole parse loop in the exception-aware model. -/
def parseRecordsE (batchDate rawText : String) : Except String (List ValueRecord) :=
  parseEntriesE batchDate (pySplit rawText sepStr)

/-- A line carrying one of the three recognized field markers. -/
def recognizedLine (l : String) : Bool :=
  pyStartsWith l "Value:" || pyStartsWith l "Junkyard Rate:" || pyStartsWith l "Auction Rate:"

/-- Extraction rule stated from the spec's words ("the suffix after the
prefix (trimmed) becomes the field value"), for comparison with the
code's `pyReplace`-based extraction. -/
def specFieldFromLine (marker line : String) : String :=
  pyStrip (String.mk (line.data.drop marker.data.length))

/-! ### Helper lemmas: resolver -/

/-- Corner FL after one loop iteration: written (with the row's label,
whatever was there before) exactly when the tag covers FL. -/
theorem processRow_FL (wc : WheelCorners) (row : FitmentRow) :
    (processRow wc row).FL =
      if coversFL row.position then setLabel wc.FL (fmt row) else wc.FL := by
  by_cases h : coversFL row.position
  · rw [if_pos h]
    simp only [coversFL, List.mem_cons, List.not_mem_nil, or_false] at h
    rcases h with h | h | h | h <;> simp [processRow, h]
  · rw [if_neg h]
    simp only [coversFL, List.mem_cons, List.not_mem_nil, or_false] at h
    push_neg at h
    obtain ⟨h1, h2, h3, h4⟩ := h
    unfold processRow
    split_ifs <;> simp_all

/-- Corner FR after one loop iteration. -/
theorem processRow_FR (wc : WheelCorners) (row : FitmentRow) :
    (processRow wc row).FR =
      if coversFR row.position then setLabel wc.FR (fmt row) else wc.FR := by
  by_cases h : coversFR row.position
  · rw [if_pos h]
    simp only [coversFR, List.mem_cons, List.not_mem_nil, or_false] at h
    rcases h with h | h | h | h <;> simp [processRow, h]
  · rw [if_neg h]
    simp only [coversFR, List.mem_cons, List.not_mem_nil, or_false] at h
    push_neg at h
    obtain ⟨h1, h2, h3, h4⟩ := h
    unfold processRow
    split_ifs <;> simp_all

/-- Corner RL after one loop iteration. -/
theorem processRow_RL (wc : WheelCorners) (row : FitmentRow) :
    (processRow wc row).RL =
      if coversRL row.position then setLabel wc.RL (fmt row) else wc.RL := by
  by_cases h : coversRL row.position
  · rw [if_pos h]
    simp only [coversRL, List.mem_cons, List.not_mem_nil, or_false] at h
    rcases h with h | h | h | h | h <;> simp [processRow, h]
  · rw [if_neg h]
    simp only [coversRL, List.mem_cons, List.not_mem_nil, or_false] at h
    push_neg at h
    obtain ⟨h1, h2, h3, h4, h5⟩ := h
    unfold processRow
    split_ifs <;> simp_all

/-- Corner RR after one loop iteration. -/
theorem processRow_RR (wc : WheelCorners) (row : FitmentRow) :
    (processRow wc row).RR =
      if coversRR row.position then setLabel wc.RR (fmt row) else wc.RR := by
  by_cases h : coversRR row.position
  · rw [if_pos h]
    simp only [coversRR, List.mem_cons, List.not_mem_nil, or_false] at h
    rcases h with h | h | h | h | h <;> simp [processRow, h]
  · rw [if_neg h]
    simp only [coversRR, List.mem_cons, List.not_mem_nil, or_false] at h
    push_neg at h
    obtain ⟨h1, h2, h3, h4, h5⟩ := h
    unfold processRow
    split_ifs <;> simp_all

/-- Nothing starting with the bold opening tag is the unset label. -/
theorem bold_ne_na (s : String) : ("<b>" ++ s) ≠ "N/A" := by
  intro h
  have h2 : ('<' :: 'b' :: '>' :: s.data) = ['N', '/', 'A'] := by
    cases s with
    | mk l => exact congrArg String.data h
  have h3 : '<' = 'N' := by injection h2
  exact absurd h3 (by decide)

/-- A resolved label is never the unset default. -/
theorem fmt_ne_na (row : FitmentRow) : fmt row ≠ "N/A" :=
  bold_ne_na _

/-- The invariant coupling each corner's color to whether its text has
been assigned. -/
def cornerInv (wc : WheelCorners) : Prop :=
  (wc.FL.color = "#333" ↔ wc.FL.text ≠ "N/A")
  ∧ (wc.FR.color = "#333" ↔ wc.FR.text ≠ "N/A")
  ∧ (wc.RL.color = "#333" ↔ wc.RL.text ≠ "N/A")
  ∧ (wc.RR.color = "#333" ↔ wc.RR.text ≠ "N/A")

/-- One loop iteration preserves the label/color invariant. -/
theorem cornerInv_processRow (wc : WheelCorners) (row : FitmentRow)
    (h : cornerInv wc) : cornerInv (processRow wc row) := by
  unfold cornerInv at h ⊢
  obtain ⟨h1, h2, h3, h4⟩ := h
  rw [processRow_FL, processRow_FR, processRow_RL, processRow_RR]
  refine ⟨?_, ?_, ?_, ?_⟩ <;> split_ifs <;> simp_all [setLabel, fmt_ne_na row]

/-- The whole loop preserves the label/color invariant. -/
theorem cornerInv_foldl :
    ∀ (rows : List FitmentRow) (wc : WheelCorners),
      cornerInv wc → cornerInv (rows.foldl processRow wc)
  | [], _, h => h
  | r :: rs, wc, h => cornerInv_foldl rs _ (cornerInv_processRow wc r h)

/-! ### Helper lemmas: parser -/

/-- A line not starting with `Value:` never changes `val`. -/
theorem scanLine_val (f : RecordFields) (l : String)
    (h : pyStartsWith l "Value:" = false) : (scanLine f l).val = f.val := by
  unfold scanLine
  split_ifs <;> simp_all

/-- A line not starting with `Junkyard Rate:` never changes `junk`. -/
theorem scanLine_junk (f : RecordFields) (l : String)
    (h : pyStartsWith l "Junkyard Rate:" = false) : (scanLine f l).junk = f.junk := by
  unfold scanLine
  split_ifs <;> simp_all

/-- A line not starting with `Auction Rate:` never changes `auc`. -/
theorem scanLine_auc (f : RecordFields) (l : String)
    (h : pyStartsWith l "Auction Rate:" = false) : (scanLine f l).auc = f.auc := by
  unfold scanLine
  split_ifs <;> simp_all

/-- `val` is untouched by a scan over lines none of which starts with
`Value:`. -/
theorem foldl_scanLine_val :
    ∀ (ls : List String) (f : RecordFields),
      (∀ l ∈ ls, pyStartsWith l "Value:" = false) →
      (ls.foldl scanLine f).val = f.val
  | [], _, _ => rfl
  | l :: ls, f, h => by
    rw [List.foldl_cons,
      foldl_scanLine_val ls _ (fun x hx => h x (List.mem_cons_of_mem _ hx))]
    exact scanLine_val f l (h l (List.mem_cons_self _ _))

/-- `junk` is untouched by a scan over lines none of which starts with
`Junkyard Rate:`. -/
theorem foldl_scanLine_junk :
    ∀ (ls : List String) (f : RecordFields),
      (∀ l ∈ ls, pyStartsWith l "Junkyard Rate:" = false) →
      (ls.foldl scanLine f).junk = f.junk
  | [], _, _ => rfl
  | l :: ls, f, h => by
    rw [List.foldl_cons,
      foldl_scanLine_junk ls _ (fun x hx => h x (List.mem_cons_of_mem _ hx))]
    exact scanLine_junk f l (h l (List.mem_cons_self _ _))

/-- `auc` is untouched by a scan over lines none of which starts with
`Auction Rate:`. -/
theorem foldl_scanLine_auc :
    ∀ (ls : List String) (f : RecordFields),
      (∀ l ∈ ls, pyStartsWith l "Auction Rate:" = false) →
      (ls.foldl scanLine f).auc = f.auc
  | [], _, _ => rfl
  | l :: ls, f, h => by
    rw [List.foldl_cons,
      foldl_scanLine_auc ls _ (fun x hx => h x (List.mem_cons_of_mem _ hx))]
    exact scanLine_auc f l (h l (List.mem_cons_self _ _))

/-- Two patterns with different first characters cannot both match. -/
theorem charsStartWith_false_of_head_ne {a b : Char} (hab : (b == a) = false) :
    ∀ (as bs l : List Char),
      charsStartWith (a :: as) l = true → charsStartWith (b :: bs) l = false := by
  intro as bs l h
  cases l with
  | nil => simp [charsStartWith] at h
  | cons c cs =>
    simp only [charsStartWith, Bool.and_eq_true, beq_iff_eq] at h
    obtain ⟨rfl, -⟩ := h
    simp [charsStartWith, hab]

/-- A `Junkyard Rate:` line is not a `Value:` line. -/
theorem startsJunk_not_startsVal {l : String}
    (h : pyStartsWith l "Junkyard Rate:" = true) : pyStartsWith l "Value:" = false :=
  charsStartWith_false_of_head_ne (by decide) _ _ _ h

/-- An `Auction Rate:` line is not a `Value:` line. -/
theorem startsAuc_not_startsVal {l : String}
    (h : pyStartsWith l "Auction Rate:" = true) : pyStartsWith l "Value:" = false :=
  charsStartWith_false_of_head_ne (by decide) _ _ _ h

/-- An `Auction Rate:` line is not a `Junkyard Rate:` line. -/
theorem startsAuc_not_startsJunk {l : String}
    (h : pyStartsWith l "Auction Rate:" = true) : pyStartsWith l "Junkyard Rate:" = false :=
  charsStartWith_false_of_head_ne (by decide) _ _ _ h

/-- The fallible model of one segment agrees with the plain one and
never reaches the error branch. -/
theorem parseEntryE_eq (d e : String) :
    parseEntryE d e = Except.ok (parseEntry d e) := by
  cases h : entryLines e with
  | nil => simp [parseEntryE, parseEntry, h]
  | cons n rest => simp [parseEntryE, parseEntry, h]

/-- The fallible model of the whole loop agrees with the plain one. -/
theorem parseEntriesE_eq (d : String) :
    ∀ l : List String, parseEntriesE d l = Except.ok (l.filterMap (parseEntry d))
  | [] => rfl
  | e :: rest => by
    have ih := parseEntriesE_eq d rest
    cases h : parseEntry d e with
    | none => simp [parseEntriesE, parseEntryE_eq, h, ih, List.filterMap_cons]
    | some r => simp [parseEntriesE, parseEntryE_eq, h, ih, List.filterMap_cons]

/-- One record per segment with a surviving first line. -/
theorem length_filterMap_parseEntry (d : String) :
    ∀ l : List String,
      (l.filterMap (parseEntry d)).length =
        (l.filter (fun e => !(entryLines e).isEmpty)).length
  | [] => rfl
  | e :: t => by
    have ih := length_filterMap_parseEntry d t
    cases h : entryLines e with
    | nil => simp [List.filterMap_cons, List.filter_cons, parseEntry, h, ih]
    | cons n rest => simp [List.filterMap_cons, List.filter_cons, parseEntry, h, ih]

/-- A produced record carries the supplied batch date. -/
theorem parseEntry_date {d e : String} {r : ValueRecord}
    (h : parseEntry d e = some r) : r.date = d := by
  cases he : entryLines e with
  | nil => simp [parseEntry, he] at h
  | cons n rest =>
    simp only [parseEntry, he] at h
    obtain ⟨rfl⟩ := h
    rfl

/-- Every record in the parsed batch carries the supplied batch date. -/
theorem parseRecords_date {d t : String} {r : ValueRecord}
    (h : r ∈ parseRecords d t) : r.date = d := by
  unfold parseRecords at h
  rw [List.mem_filterMap] at h
  obtain ⟨e, -, he⟩ := h
  exact parseEntry_date he

/-! ### Claims about the position resolver -/

/-- C1: tag dispatch of the position resolver.  A row tagged `front` or
`front_axle` writes its label to exactly FL and FR; `back`, `rear` or
`rear_axle` to exactly RL and RR; `all` to all four; each of the four
single-corner tags to exactly its corner; any other tag leaves the state
untouched. -/
theorem c1_tag_dispatch (wc : WheelCorners) (row : FitmentRow) :
    (row.position ∈ ["front", "front_axle"] →
      processRow wc row =
        { wc with FL := setLabel wc.FL (fmt row), FR := setLabel wc.FR (fmt row) })
  ∧ (row.position ∈ ["back", "rear", "rear_axle"] →
      processRow wc row =
        { wc with RL := setLabel wc.RL (fmt row), RR := setLabel wc.RR (fmt row) })
  ∧ (row.position = "all" →
      processRow wc row =
        { FL := setLabel wc.FL (fmt row), FR := setLabel wc.FR (fmt row),
          RL := setLabel wc.RL (fmt row), RR := setLabel wc.RR (fmt row) })
  ∧ (row.position = "front_left" →
      processRow wc row = { wc with FL := setLabel wc.FL (fmt row) })
  ∧ (row.position = "front_right" →
      processRow wc row = { wc with FR := setLabel wc.FR (fmt row) })
  ∧ (row.position = "back_left" →
      processRow wc row = { wc with RL := setLabel wc.RL (fmt row) })
  ∧ (row.position = "back_right" →
      processRow wc row = { wc with RR := setLabel wc.RR (fmt row) })
  ∧ (row.position ∉ ["front", "front_axle", "back", "rear", "rear_axle", "all",
        "front_left", "front_right", "back_left", "back_right"] →
      processRow wc row = wc) := by
  refine ⟨?_, ?_, ?_, ?_, ?_, ?_, ?_, ?_⟩
  · intro h
    simp only [List.mem_cons, List.not_mem_nil, or_false] at h
    rcases h with h | h <;> simp [processRow, h]
  · intro h
    simp only [List.mem_cons, List.not_mem_nil, or_false] at h
    rcases h with h | h | h <;> simp [processRow, h]
  · intro h; simp [processRow, h]
  · intro h; simp [processRow, h]
  · intro h; simp [processRow, h]
  · intro h; simp [processRow, h]
  · intro h; simp [processRow, h]
  · intro h
    simp only [List.mem_cons, List.not_mem_nil, or_false] at h
    push_neg at h
    obtain ⟨h1, h2, h3, h4, h5, h6, h7, h8, h9, h10⟩ := h
    simp [processRow, h1, h2, h3, h4, h5, h6, h7, h8, h9, h10]

/-- C1 witness: a concrete `front` row writes FL and FR of the initial
state. -/
theorem c1_tag_dispatch_witness :
    processRow wheelCornersInit
      { position := "front", width_mm := "205", aspect_ratio := "55", rim_diameter_in := "16" } =
      { wheelCornersInit with
        FL := setLabel wheelCornersInit.FL
          (fmt { position := "front", width_mm := "205", aspect_ratio := "55", rim_diameter_in := "16" }),
        FR := setLabel wheelCornersInit.FR
          (fmt { position := "front", width_mm := "205", aspect_ratio := "55", rim_diameter_in := "16" }) } :=
  (c1_tag_dispatch wheelCornersInit
    { position := "front", width_mm := "205", aspect_ratio := "55", rim_diameter_in := "16" }).1
    (by decide)

/-- C3 counterexample: the stored corner label of an assigned row is the
bold-wrapped string, not the bare width-aspect-rim concatenation the
claim states. -/
theorem c3_counterexample :
    (resolvePositions
        [{ position := "front_left", width_mm := "205", aspect_ratio := "55",
           rim_diameter_in := "16" }]).FL.text ≠ "205 / 55 R16"
  ∧ (resolvePositions
        [{ position := "front_left", width_mm := "205", aspect_ratio := "55",
           rim_diameter_in := "16" }]).FL.text = "<b>205 / 55 R16</b>" := by
  decide

/-- C3 (amended): every assignment writes the label built from the row's
width, aspect ratio and rim diameter with the fixed separator, wrapped in
HTML bold tags. -/
theorem c3_label_format (wc : WheelCorners) (row : FitmentRow) :
    (coversFL row.position → (processRow wc row).FL.text =
      "<b>" ++ (row.width_mm ++ (" / " ++ (row.aspect_ratio ++
        (" R" ++ (row.rim_diameter_in ++ "</b>"))))))
  ∧ (coversFR row.position → (processRow wc row).FR.text =
      "<b>" ++ (row.width_mm ++ (" / " ++ (row.aspect_ratio ++
        (" R" ++ (row.rim_diameter_in ++ "</b>"))))))
  ∧ (coversRL row.position → (processRow wc row).RL.text =
      "<b>" ++ (row.width_mm ++ (" / " ++ (row.aspect_ratio ++
        (" R" ++ (row.rim_diameter_in ++ "</b>"))))))
  ∧ (coversRR row.position → (processRow wc row).RR.text =
      "<b>" ++ (row.width_mm ++ (" / " ++ (row.aspect_ratio ++
        (" R" ++ (row.rim_diameter_in ++ "</b>")))))) := by
  refine ⟨?_, ?_, ?_, ?_⟩ <;> intro h
  · rw [processRow_FL, if_pos h]; rfl
  · rw [processRow_FR, if_pos h]; rfl
  · rw [processRow_RL, if_pos h]; rfl
  · rw [processRow_RR, if_pos h]; rfl

/-- C3 witness: concrete label of an `all` row on the initial state. -/
theorem c3_label_format_witness :
    (processRow wheelCornersInit
      { position := "all", width_mm := "215", aspect_ratio := "45",
        rim_diameter_in := "17" }).FL.text =
      "<b>" ++ ("215" ++ (" / " ++ ("45" ++ (" R" ++ ("17" ++ "</b>"))))) :=
  (c3_label_format wheelCornersInit
    { position := "all", width_mm := "215", aspect_ratio := "45",
      rim_diameter_in := "17" }).1 (by decide)

/-- C4: an assignment overwrites whatever was on the covered corner (the
new corner value does not depend on the old label), an uncovered corner
is left untouched, and a `front` row followed by a `front_left` row
leaves FL with the later row's label and FR with the earlier row's. -/
theorem c4_overwrite_order (wc : WheelCorners) (row r1 r2 : FitmentRow) :
    (coversFL row.position → (processRow wc row).FL = setLabel wc.FL (fmt row))
  ∧ (¬ coversFL row.position → (processRow wc row).FL = wc.FL)
  ∧ (coversFR row.position → (processRow wc row).FR = setLabel wc.FR (fmt row))
  ∧ (¬ coversFR row.position → (processRow wc row).FR = wc.FR)
  ∧ (coversRL row.position → (processRow wc row).RL = setLabel wc.RL (fmt row))
  ∧ (¬ coversRL row.position → (processRow wc row).RL = wc.RL)
  ∧ (coversRR row.position → (processRow wc row).RR = setLabel wc.RR (fmt row))
  ∧ (¬ coversRR row.position → (processRow wc row).RR = wc.RR)
  ∧ (r1.position = "front" → r2.position = "front_left" →
      (processRow (processRow wc r1) r2).FL.text = fmt r2
      ∧ (processRow (processRow wc r1) r2).FR.text = fmt r1
      ∧ (processRow (processRow wc r1) r2).RL = wc.RL
      ∧ (processRow (processRow wc r1) r2).RR = wc.RR) := by
  refine ⟨?_, ?_, ?_, ?_, ?_, ?_, ?_, ?_, ?_⟩
  · intro h; rw [processRow_FL, if_pos h]
  · intro h; rw [processRow_FL, if_neg h]
  · intro h; rw [processRow_FR, if_pos h]
  · intro h; rw [processRow_FR, if_neg h]
  · intro h; rw [processRow_RL, if_pos h]
  · intro h; rw [processRow_RL, if_neg h]
  · intro h; rw [processRow_RR, if_pos h]
  · intro h; rw [processRow_RR, if_neg h]
  · intro h1 h2
    have cfl2 : coversFL r2.position := by rw [h2]; decide
    have cfr2 : ¬ coversFR r2.position := by rw [h2]; decide
    have crl2 : ¬ coversRL r2.position := by rw [h2]; decide
    have crr2 : ¬ coversRR r2.position := by rw [h2]; decide
    have cfr1 : coversFR r1.position := by rw [h1]; decide
    have crl1 : ¬ coversRL r1.position := by rw [h1]; decide
    have crr1 : ¬ coversRR r1.position := by rw [h1]; decide
    refine ⟨?_, ?_, ?_, ?_⟩
    · rw [processRow_FL, if_pos cfl2]; rfl
    · rw [processRow_FR, if_neg cfr2, processRow_FR, if_pos cfr1]; rfl
    · rw [processRow_RL, if_neg crl2, processRow_RL, if_neg crl1]
    · rw [processRow_RR, if_neg crr2, processRow_RR, if_neg crr1]

/-- C4 witness: a concrete `front` row then a concrete `front_left`
row. -/
theorem c4_overwrite_order_witness :
    (processRow (processRow wheelCornersInit
        { position := "front", width_mm := "205", aspect_ratio := "55",
          rim_diameter_in := "16" })
        { position := "front_left", width_mm := "225", aspect_ratio := "40",
          rim_diameter_in := "18" }).FL.text =
      fmt { position := "front_left", width_mm := "225", aspect_ratio := "40",
            rim_diameter_in := "18" } :=
  (((c4_overwrite_order wheelCornersInit
      { position := "front", width_mm := "205", aspect_ratio := "55",
        rim_diameter_in := "16" }
      { position := "front", width_mm := "205", aspect_ratio := "55",
        rim_diameter_in := "16" }
      { position := "front_left", width_mm := "225", aspect_ratio := "40",
        rim_diameter_in := "18" }).2.2.2.2.2.2.2.2) rfl rfl).1

/-- C8: the resolver is a pure function of the rows.  Two runs on equal
row collections, whatever the make and model arguments, produce the same
four-corner output. -/
theorem c8_resolver_deterministic (rows rows2 : List FitmentRow)
    (make model make2 model2 : String) (h : rows = rows2) :
    (create_tpms_diagram rows make model).corners =
      (create_tpms_diagram rows2 make2 model2).corners := by
  subst h
  rfl

/-- C8 witness: two concrete runs on the same rows with different make
and model. -/
theorem c8_resolver_deterministic_witness :
    (create_tpms_diagram
        [{ position := "all", width_mm := "215", aspect_ratio := "45",
           rim_diameter_in := "17" }] "Toyota" "Supra").corners =
      (create_tpms_diagram
        [{ position := "all", width_mm := "215", aspect_ratio := "45",
           rim_diameter_in := "17" }] "Honda" "Civic").corners :=
  c8_resolver_deterministic _ _ "Toyota" "Supra" "Honda" "Civic" rfl

/-- C10: after resolving any row collection, a corner's color is the
assigned color `#333` exactly when its text differs from the unset
default `N/A`. -/
theorem c10_label_color_coupling (rows : List FitmentRow) :
    ((resolvePositions rows).FL.color = "#333" ↔ (resolvePositions rows).FL.text ≠ "N/A")
  ∧ ((resolvePositions rows).FR.color = "#333" ↔ (resolvePositions rows).FR.text ≠ "N/A")
  ∧ ((resolvePositions rows).RL.color = "#333" ↔ (resolvePositions rows).RL.text ≠ "N/A")
  ∧ ((resolvePositions rows).RR.color = "#333" ↔ (resolvePositions rows).RR.text ≠ "N/A") :=
  cornerInv_foldl rows wheelCornersInit (by unfold cornerInv; decide)

/-- C10 witness: the coupling at a concrete single-row input. -/
theorem c10_label_color_coupling_witness :
    ((resolvePositions
        [{ position := "front", width_mm := "205", aspect_ratio := "55",
           rim_diameter_in := "16" }]).FL.color = "#333" ↔
      (resolvePositions
        [{ position := "front", width_mm := "205", aspect_ratio := "55",
           rim_diameter_in := "16" }]).FL.text ≠ "N/A")
  ∧ ((resolvePositions
        [{ position := "front", width_mm := "205", aspect_ratio := "55",
           rim_diameter_in := "16" }]).FR.color = "#333" ↔
      (resolvePositions
        [{ position := "front", width_mm := "205", aspect_ratio := "55",
           rim_diameter_in := "16" }]).FR.text ≠ "N/A")
  ∧ ((resolvePositions
        [{ position := "front", width_mm := "205", aspect_ratio := "55",
           rim_diameter_in := "16" }]).RL.color = "#333" ↔
      (resolvePositions
        [{ position := "front", width_mm := "205", aspect_ratio := "55",
           rim_diameter_in := "16" }]).RL.text ≠ "N/A")
  ∧ ((resolvePositions
        [{ position := "front", width_mm := "205", aspect_ratio := "55",
           rim_diameter_in := "16" }]).RR.color = "#333" ↔
      (resolvePositions
        [{ position := "front", width_mm := "205", aspect_ratio := "55",
           rim_diameter_in := "16" }]).RR.text ≠ "N/A") :=
  c10_label_color_coupling
    [{ position := "front", width_mm := "205", aspect_ratio := "55",
       rim_diameter_in := "16" }]

/-! ### Claims about the record parser -/

/-- C2 counterexample: on the line `Value: Value: 5` the code removes
every occurrence of the marker (Python `str.replace`), producing `5`,
while the claimed suffix-after-marker extraction produces `Value: 5`. -/
theorem c2_counterexample :
    parseRecords "2026-01-01" "Car X\nValue: Value: 5" =
      [{ date := "2026-01-01", carName := "Car X", value := "5",
         junkyardRate := "N/A", auctionRate := "N/A" }]
  ∧ specFieldFromLine "Value:" "Value: Value: 5" = "Value: 5"
  ∧ ("5" : String) ≠ "Value: 5" := by
  decide

/-- C2 (amended): a line starting with a recognized marker sets the
corresponding field to the line with every occurrence of the marker
removed, trimmed; a line starting with none of the three markers changes
nothing; a segment with no line carrying a given marker keeps that
field's default (value `0`, rates `N/A`). -/
theorem c2_field_extraction (f : RecordFields) (line : String) (seg : List String) :
    (pyStartsWith line "Value:" = true →
      scanLine f line = { f with val := pyStrip (pyReplace line "Value:" "") })
  ∧ (pyStartsWith line "Junkyard Rate:" = true →
      scanLine f line = { f with junk := pyStrip (pyReplace line "Junkyard Rate:" "") })
  ∧ (pyStartsWith line "Auction Rate:" = true →
      scanLine f line = { f with auc := pyStrip (pyReplace line "Auction Rate:" "") })
  ∧ (pyStartsWith line "Value:" = false → pyStartsWith line "Junkyard Rate:" = false →
      pyStartsWith line "Auction Rate:" = false → scanLine f line = f)
  ∧ ((∀ l ∈ seg, pyStartsWith l "Value:" = false) → (scanLines seg).val = "0")
  ∧ ((∀ l ∈ seg, pyStartsWith l "Junkyard Rate:" = false) → (scanLines seg).junk = "N/A")
  ∧ ((∀ l ∈ seg, pyStartsWith l "Auction Rate:" = false) → (scanLines seg).auc = "N/A") := by
  refine ⟨?_, ?_, ?_, ?_, ?_, ?_, ?_⟩
  · intro h; simp [scanLine, h]
  · intro h; simp [scanLine, h, startsJunk_not_startsVal h]
  · intro h; simp [scanLine, h, startsAuc_not_startsVal h, startsAuc_not_startsJunk h]
  · intro h1 h2 h3; simp [scanLine, h1, h2, h3]
  · exact foldl_scanLine_val seg _
  · exact foldl_scanLine_junk seg _
  · exact foldl_scanLine_auc seg _

/-- C2 witness: a concrete `Value:` line sets `val`. -/
theorem c2_field_extraction_witness :
    scanLine { val := "0", junk := "N/A", auc := "N/A" } "Value: 99" =
      { val := "99", junk := "N/A", auc := "N/A" } :=
  ((c2_field_extraction { val := "0", junk := "N/A", auc := "N/A" } "Value: 99" []).1
    (by decide)).trans (by decide)

/-- C5: the parser yields exactly one record per segment whose list of
non-empty trimmed lines is non-empty, named after that first line and
carrying the supplied batch date; segments with no surviving line yield
nothing; the empty input yields no record. -/
theorem c5_record_count (d text : String) :
    parseRecords d "" = []
  ∧ parseRecords d text = (pySplit text sepStr).filterMap (parseEntry d)
  ∧ (∀ entry, entryLines entry = [] → parseEntry d entry = none)
  ∧ (∀ entry first rest, entryLines entry = first :: rest →
      ∃ r, parseEntry d entry = some r ∧ r.carName = first ∧ r.date = d)
  ∧ (parseRecords d text).length =
      ((pySplit text sepStr).filter (fun e => !(entryLines e).isEmpty)).length
  ∧ (∀ r ∈ parseRecords d text, r.date = d) := by
  refine ⟨rfl, rfl, ?_, ?_, ?_, ?_⟩
  · intro entry h; simp [parseEntry, h]
  · intro entry first rest h
    exact ⟨{ date := d, carName := first, value := (scanLines rest).val,
             junkyardRate := (scanLines rest).junk, auctionRate := (scanLines rest).auc },
           by simp [parseEntry, h], rfl, rfl⟩
  · exact length_filterMap_parseEntry d (pySplit text sepStr)
  · intro r hr; exact parseRecords_date hr

/-- C5 witness: a segment with no non-empty line yields no record. -/
theorem c5_record_count_witness : parseEntry "2026-01-01" "  \n " = none :=
  (c5_record_count "2026-01-01" "").2.2.1 "  \n " (by decide)

/-- C6: the spec's worked example, for an arbitrary batch date. -/
theorem c6_worked_example (d : String) :
    parseRecords d "Car A\nValue: 100\n━━━\nCar B\nJunkyard Rate: 50" =
      [{ date := d, carName := "Car A", value := "100",
         junkyardRate := "N/A", auctionRate := "N/A" },
       { date := d, carName := "Car B", value := "0",
         junkyardRate := "50", auctionRate := "N/A" }] := rfl

/-- C6 witness: the worked example at a concrete batch date. -/
theorem c6_worked_example_witness :
    parseRecords "2026-01-01" "Car A\nValue: 100\n━━━\nCar B\nJunkyard Rate: 50" =
      [{ date := "2026-01-01", carName := "Car A", value := "100",
         junkyardRate := "N/A", auctionRate := "N/A" },
       { date := "2026-01-01", carName := "Car B", value := "0",
         junkyardRate := "50", auctionRate := "N/A" }] :=
  c6_worked_example "2026-01-01"

/-- C7: the parse loop never reaches a raising operation (the fallible
model always returns `ok`, on every input), and a segment whose body
lines carry none of the three markers degrades to the default fields
instead of failing. -/
theorem c7_parser_totality (d text : String) :
    parseRecordsE d text = Except.ok (parseRecords d text)
  ∧ (∀ entry first rest, entryLines entry = first :: rest →
      (∀ l ∈ rest, recognizedLine l = false) →
      parseEntry d entry =
        some { date := d, carName := first, value := "0",
               junkyardRate := "N/A", auctionRate := "N/A" }) := by
  constructor
  · exact parseEntriesE_eq d (pySplit text sepStr)
  · intro entry first rest h hrec
    have hv : ∀ l ∈ rest, pyStartsWith l "Value:" = false := by
      intro l hl
      have := hrec l hl
      simp only [recognizedLine, Bool.or_eq_false_iff] at this
      exact this.1.1
    have hj : ∀ l ∈ rest, pyStartsWith l "Junkyard Rate:" = false := by
      intro l hl
      have := hrec l hl
      simp only [recognizedLine, Bool.or_eq_false_iff] at this
      exact this.1.2
    have ha : ∀ l ∈ rest, pyStartsWith l "Auction Rate:" = false := by
      intro l hl
      have := hrec l hl
      simp only [recognizedLine, Bool.or_eq_false_iff] at this
      exact this.2
    have hs : scanLines rest = { val := "0", junk := "N/A", auc := "N/A" } := by
      have h1 := foldl_scanLine_val rest ⟨"0", "N/A", "N/A"⟩ hv
      have h2 := foldl_scanLine_junk rest ⟨"0", "N/A", "N/A"⟩ hj
      have h3 := foldl_scanLine_auc rest ⟨"0", "N/A", "N/A"⟩ ha
      cases hsc : scanLines rest with
      | mk v j a =>
        unfold scanLines at hsc
        rw [hsc] at h1 h2 h3
        simp only at h1 h2 h3
        rw [h1, h2, h3]
    simp [parseEntry, h, hs]

/-- C7 witness: a malformed concrete segment degrades to defaults. -/
theorem c7_parser_totality_witness :
    parseEntry "2026-01-01" "Car Z\nhello" =
      some { date := "2026-01-01", carName := "Car Z", value := "0",
             junkyardRate := "N/A", auctionRate := "N/A" } :=
  (c7_parser_totality "2026-01-01" "").2 "Car Z\nhello" "Car Z" ["hello"]
    (by decide) (by decide)

/-- C9: when several lines of one segment carry the same marker, the
field of the produced record holds the extraction of the last such line;
earlier ones are overwritten. -/
theorem c9_last_wins (l1 l2 : List String) (x : String) :
    (pyStartsWith x "Value:" = true →
      (∀ l ∈ l2, pyStartsWith l "Value:" = false) →
      (scanLines (l1 ++ x :: l2)).val = pyStrip (pyReplace x "Value:" ""))
  ∧ (pyStartsWith x "Junkyard Rate:" = true →
      (∀ l ∈ l2, pyStartsWith l "Junkyard Rate:" = false) →
      (scanLines (l1 ++ x :: l2)).junk = pyStrip (pyReplace x "Junkyard Rate:" ""))
  ∧ (pyStartsWith x "Auction Rate:" = true →
      (∀ l ∈ l2, pyStartsWith l "Auction Rate:" = false) →
      (scanLines (l1 ++ x :: l2)).auc = pyStrip (pyReplace x "Auction Rate:" "")) := by
  refine ⟨?_, ?_, ?_⟩ <;> intro hx h2
  · unfold scanLines
    rw [List.foldl_append, List.foldl_cons, foldl_scanLine_val l2 _ h2]
    simp [scanLine, hx]
  · unfold scanLines
    rw [List.foldl_append, List.foldl_cons, foldl_scanLine_junk l2 _ h2]
    simp [scanLine, hx, startsJunk_not_startsVal hx]
  · unfold scanLines
    rw [List.foldl_append, List.foldl_cons, foldl_scanLine_auc l2 _ h2]
    simp [scanLine, hx, startsAuc_not_startsVal hx, startsAuc_not_startsJunk hx]

/-- C9 witness: two `Value:` lines, the second one wins. -/
theorem c9_last_wins_witness : (scanLines ["Value: 1", "Value: 2"]).val = "2" :=
  ((c9_last_wins ["Value: 1"] [] "Value: 2").1 (by decide) (by decide)).trans (by decide)

end FitmentApp
